import Mathlib

/-!
Verification of the method-call modeling and taint-transform application
layer: the shim subsystem (`Shim.cpp` / `Shim.h`) and propagation
application (`TransformOperations.cpp`).

Interned, identity-compared objects (`DexType*`, kinds, transforms,
registers) are represented by natural numbers; the `unordered_map`
containers by association lists; nullable pointers by `Option`;
`mt_assert` failures by the `Except.error` branch of an `Except Unit`
result.
-/

namespace MT

/-- Interned dex type handle (`const DexType*`), compared by identity. -/
abbrev DexType := Nat

/-- A register holding a call-instruction source operand. -/
abbrev Register := Nat

/-- Zero-based parameter position, receiver-inclusive for instance methods. -/
abbrev ParameterPosition := Nat

/-- Position of a parameter in the shimmed method (`Shim.h`). -/
abbrev ShimParameterPosition := ParameterPosition

/-- First-match lookup in an association list; models `unordered_map::find`
followed by reading the mapped value. -/
def lookupA {α β : Type} [DecidableEq α] : List (α × β) → α → Option β
  | [], _ => none
  | e :: rest, k => if e.1 = k then some e.2 else lookupA rest k

/-- A method of the analyzed program: declaring class, declared argument
types (`proto->get_args()`), and staticness. -/
structure Method where
  klass : DexType
  args : List DexType
  is_static : Bool
deriving DecidableEq

/-- Modelled from the spec: `Method::parameter_type` (declared in
`Method.h`, which is not among these sources). Returns the method's
parameter type at a receiver-inclusive position — position 0 is the
receiver class for instance methods — or none when out of range. -/
def Method.parameter_type (m : Method) (argument : ParameterPosition) : Option DexType :=
  if m.is_static = false ∧ argument = 0 then some m.klass
  else m.args.get? (argument - (if m.is_static then 0 else 1))

/-- Modelled from the spec: `Method::number_of_parameters`, the
receiver-inclusive parameter count. -/
def Method.number_of_parameters (m : Method) : Nat :=
  m.args.length + (if m.is_static then 0 else 1)

/-- Wrapper around the shimmed method with its type-to-position index
(`Shim.h`). -/
structure ShimMethod where
  method : Method
  types_to_position : List (DexType × ShimParameterPosition)

/-- `unordered_map::emplace`: inserts only when the key is absent. -/
def mapEmplace (m : List (DexType × ShimParameterPosition)) (k : DexType)
    (v : ShimParameterPosition) : List (DexType × ShimParameterPosition) :=
  if (lookupA m k).isSome then m else m ++ [(k, v)]

/-- The constructor's loop over the declared argument types: emplace each
type at the running index, incrementing the index each step. -/
def emplaceArgs : List (DexType × ShimParameterPosition) → Nat → List DexType →
    List (DexType × ShimParameterPosition)
  | acc, _, [] => acc
  | acc, i, t :: rest => emplaceArgs (mapEmplace acc t i) (i + 1) rest

/-- `ShimMethod::ShimMethod` (Shim.cpp, lines 76-92): emplace the receiver
class at position 0 for instance methods, then the declared argument types
at the following positions. -/
def ShimMethod.make (method : Method) : ShimMethod :=
  if method.is_static then ⟨method, emplaceArgs [] 0 method.args⟩
  else ⟨method, emplaceArgs (mapEmplace [] method.klass 0) 1 method.args⟩

/-- `ShimMethod::parameter_type` (Shim.cpp, lines 98-101). -/
def ShimMethod.parameter_type (sm : ShimMethod) (argument : ShimParameterPosition) :
    Option DexType :=
  sm.method.parameter_type argument

/-- `ShimMethod::type_position` (Shim.cpp, lines 103-116): look up a dex
type in the type-to-position index. -/
def ShimMethod.type_position (sm : ShimMethod) (t : DexType) : Option ShimParameterPosition :=
  lookupA sm.types_to_position t

/-- `get_parameter_type` (Shim.cpp, lines 21-47): resolve a shim target's
parameter type at a receiver-inclusive position, reporting none (the error
path returning nullptr) when out of range. -/
def get_parameter_type (dex_class : DexType) (dex_args : List DexType)
    (is_static : Bool) (position : ParameterPosition) : Option DexType :=
  let number_of_parameters := dex_args.length + (if is_static then 0 else 1)
  if position ≥ number_of_parameters then none
  else if is_static = false ∧ position = 0 then some dex_class
  else dex_args.get? (position - (if is_static then 0 else 1))

/-- Mapping from shim-target parameter positions to shimmed-method
parameter positions (`map_` of `ShimParameterMapping`); keys are unique in
the C++ `unordered_map`. -/
abbrev ShimParameterMapping := List (ParameterPosition × ShimParameterPosition)

/-- The loop of `infer_parameter_mapping` (Shim.cpp, lines 61-69): walk
the shim target's declared argument types with their loop index; whenever
the type occurs in the shimmed method's index, record an entry at the
receiver-inclusive target position. The inserted keys are distinct and
increasing, so the accumulated map is this entry list. -/
def inferGo (sm : ShimMethod) (first : Nat) : Nat → List DexType → ShimParameterMapping
  | _, [] => []
  | p, t :: rest =>
    match sm.type_position t with
    | some shim_position => (p + first, shim_position) :: inferGo sm first (p + 1) rest
    | none => inferGo sm first (p + 1) rest

/-- `infer_parameter_mapping` (Shim.cpp, lines 49-72). The target class
argument is carried but unused, as in the source. -/
def infer_parameter_mapping (shim_target_class : DexType) (shim_target_args : List DexType)
    (shim_target_is_static : Bool) (sm : ShimMethod) : ShimParameterMapping :=
  inferGo sm (if shim_target_is_static then 0 else 1) 0 shim_target_args

/-- The body of the explicit-entry loop of `ShimParameterMapping::instantiate`
(Shim.cpp, lines 178-204): an entry is kept when its target-parameter type
resolves and is identical to the shimmed method's type at the mapped shim
position; the two `continue` branches (out-of-range or null type, and type
mismatch) drop it. -/
def keepEntry (shim_target_class : DexType) (shim_target_args : List DexType)
    (shim_target_is_static : Bool) (sm : ShimMethod)
    (e : ParameterPosition × ShimParameterPosition) : Bool :=
  match get_parameter_type shim_target_class shim_target_args shim_target_is_static e.1 with
  | none => false
  | some callee_type =>
    match sm.parameter_type e.2 with
    | none => false
    | some shim_type => callee_type == shim_type

/-- `ShimParameterMapping::instantiate` (Shim.cpp, lines 163-207): an empty
mapping delegates to inference; otherwise each explicit entry is kept or
dropped independently. Since the keys of `map_` are unique, the loop's
`insert` of the surviving entries builds exactly the filtered entry set. -/
def ShimParameterMapping.instantiate (m : ShimParameterMapping)
    (shim_target_method : String) (shim_target_class : DexType)
    (shim_target_args : List DexType) (shim_target_is_static : Bool)
    (sm : ShimMethod) : ShimParameterMapping :=
  if m.isEmpty then
    infer_parameter_mapping shim_target_class shim_target_args shim_target_is_static sm
  else
    m.filter (keepEntry shim_target_class shim_target_args shim_target_is_static sm)

/-- Modelled from the spec: a call instruction exposes its ordered list of
source operand registers (`srcs_size` / `src`; `IRInstruction` belongs to
the external bytecode framework). -/
structure IRInstruction where
  srcs : List Register

/-- A shim target: concrete callee plus its instantiated parameter mapping
(`Shim.h`). -/
structure ShimTarget where
  call_target : Method
  parameter_mapping : ShimParameterMapping

/-- `ShimTarget::receiver_register` (Shim.cpp, lines 214-228): none for a
static target or when the mapping has no entry for position 0; otherwise
the operand at the mapped shim position. The `mt_assert` that the mapped
position is below the operand count is the `Except.error` branch. -/
def ShimTarget.receiver_register (st : ShimTarget) (instruction : IRInstruction) :
    Except Unit (Option Register) :=
  if st.call_target.is_static then Except.ok none
  else
    match lookupA st.parameter_mapping 0 with
    | none => Except.ok none
    | some receiver_position =>
      if h : receiver_position < instruction.srcs.length then
        Except.ok (some (instruction.srcs.get ⟨receiver_position, h⟩))
      else Except.error ()

/-- The loop of `ShimTarget::parameter_registers` over the given target
positions: for each mapped position, read the operand at the mapped shim
position. Reading past the operand list is the assertion inside
`IRInstruction::src` (modelled from the spec as an internal-invariant
failure), hence the `Except.error` branch. -/
def paramRegsGo (mapping : ShimParameterMapping) (srcs : List Register) :
    List ParameterPosition → Except Unit (List (ParameterPosition × Register))
  | [] => Except.ok []
  | p :: rest =>
    match lookupA mapping p with
    | none => paramRegsGo mapping srcs rest
    | some shim_position =>
      match srcs[shim_position]? with
      | none => Except.error ()
      | some r =>
        match paramRegsGo mapping srcs rest with
        | Except.error e => Except.error e
        | Except.ok l => Except.ok ((p, r) :: l)

/-- `ShimTarget::parameter_registers` (Shim.cpp, lines 230-243): iterate
the target positions from 0 up to the target's receiver-inclusive
parameter count. -/
def ShimTarget.parameter_registers (st : ShimTarget) (instruction : IRInstruction) :
    Except Unit (List (ParameterPosition × Register)) :=
  paramRegsGo st.parameter_mapping instruction.srcs
    (List.range st.call_target.number_of_parameters)

/-- Taint kinds as consumed by propagation application: plain kinds,
propagation kinds (by interned identity), and transform kinds carrying a
base kind, local transforms, and nullable global transforms. -/
inductive Kind where
  | plain (id : Nat)
  | propagation (id : Nat)
  | transform (base : Kind) (local_transforms : List Nat) (global_transforms : Option (List Nat))
deriving DecidableEq

/-- A taint frame as consumed here: it exposes its (nullable) kind. -/
structure Frame where
  kind : Option Kind

/-- Modelled from the spec: an opaque taint-content value (a lattice
element of frames), represented by an interned handle. -/
abbrev Taint := Nat

/-- A structural access path: an ordered sequence of field selectors. -/
abbrev Path := List Nat

/-- Modelled from the spec: a taint tree is a mapping from access paths to
taint content; `elements()` enumerates its (path, content) pairs, so the
paths of a well-formed tree are distinct. -/
abbrev TaintTree := List (Path × Taint)

/-- Modelled from the spec: `TaintTree::write` with `UpdateKind::Weak`
joins (unions) the written content with any content already at the path,
and creates the path otherwise. -/
def TaintTree.write (join : Taint → Taint → Taint) :
    TaintTree → Path → Taint → TaintTree
  | [], path, taint => [(path, taint)]
  | e :: rest, path, taint =>
    if e.1 = path then (e.1, join e.2 taint) :: rest
    else e :: TaintTree.write join rest path taint

/-- First-match content lookup at a path in a taint tree. -/
def TaintTree.lookup : TaintTree → Path → Option Taint
  | [], _ => none
  | e :: rest, p => if e.1 = p then some e.2 else TaintTree.lookup rest p

/-- The `PropagationInfo` result of `apply_propagation`: the resulting
propagation kind (by interned identity) and the output taint tree. -/
structure PropagationInfo where
  propagation_kind : Nat
  output_taint_tree : TaintTree
deriving DecidableEq

/-- `transforms::apply_propagation` (TransformOperations.cpp, lines 16-47).
The external `Taint::apply_transform` (with the context's kind and
transform registries already applied) is the parameter `applyTransform`,
mapping the local transforms and a content value to the transformed
content; `join` is the taint join used by weak updates. Each `mt_assert`
(null kind, failed `TransformKind` downcast, non-null global transforms,
failed `PropagationKind` downcast of the base) is the `Except.error`
branch. -/
def apply_propagation (applyTransform : List Nat → Taint → Taint)
    (join : Taint → Taint → Taint) (propagation : Frame)
    (input_taint_tree : TaintTree) : Except Unit PropagationInfo :=
  match propagation.kind with
  | none => Except.error ()
  | some (Kind.propagation id) => Except.ok ⟨id, input_taint_tree⟩
  | some (Kind.transform base local_transforms global_transforms) =>
    match global_transforms with
    | some _ => Except.error ()
    | none =>
      match base with
      | Kind.propagation id =>
        Except.ok ⟨id, input_taint_tree.foldl
          (fun acc e => TaintTree.write join acc e.1 (applyTransform local_transforms e.2)) []⟩
      | _ => Except.error ()
  | some (Kind.plain _) => Except.error ()

/-- The receiver-inclusive signature of a method: the receiver class first
for instance methods, then the declared argument types. -/
def shimSignature (m : Method) : List DexType :=
  (if m.is_static then [] else [m.klass]) ++ m.args

/-- Index (counting from the given start) of the first occurrence of a
type in a list of types. -/
def firstIndexFrom : Nat → List DexType → DexType → Option Nat
  | _, [], _ => none
  | i, x :: rest, t => if x = t then some i else firstIndexFrom (i + 1) rest t

/-! Association-list lemmas. -/

theorem lookupA_append {α β : Type} [DecidableEq α] (a b : List (α × β)) (k : α) :
    lookupA (a ++ b) k = (lookupA a k).or (lookupA b k) := by
  induction a with
  | nil => simp [lookupA]
  | cons e rest ih =>
    by_cases h : e.1 = k <;> simp [lookupA, h, ih]

theorem mem_of_lookupA {α β : Type} [DecidableEq α] {m : List (α × β)} {k : α} {v : β}
    (h : lookupA m k = some v) : (k, v) ∈ m := by
  induction m with
  | nil => simp [lookupA] at h
  | cons e rest ih =>
    by_cases he : e.1 = k
    · simp [lookupA, he] at h
      subst he h
      simp
    · simp [lookupA, he] at h
      exact List.mem_cons_of_mem _ (ih h)

theorem lookupA_eq_some_of_mem {α β : Type} [DecidableEq α] {m : List (α × β)} {k : α} {v : β}
    (hnd : (m.map Prod.fst).Nodup) (h : (k, v) ∈ m) : lookupA m k = some v := by
  induction m with
  | nil => simp at h
  | cons e rest ih =>
    simp only [List.map_cons, List.nodup_cons] at hnd
    rcases List.mem_cons.mp h with h1 | h1
    · subst h1
      simp [lookupA]
    · have hk : e.1 ≠ k := by
        intro hek
        exact hnd.1 (hek ▸ (List.mem_map.mpr ⟨(k, v), h1, rfl⟩))
      simp [lookupA, hk]
      exact ih hnd.2 h1

theorem lookupA_eq_none {α β : Type} [DecidableEq α] {m : List (α × β)} {k : α}
    (h : ∀ v : β, (k, v) ∉ m) : lookupA m k = none := by
  induction m with
  | nil => rfl
  | cons e rest ih =>
    have he : e.1 ≠ k := by
      intro hek
      exact h e.2 (by simp [← hek])
    simp [lookupA, he]
    exact ih (fun v hv => h v (List.mem_cons_of_mem _ hv))

theorem lookupA_filter_eq_none {α β : Type} [DecidableEq α] (m : List (α × β))
    (p : α × β → Bool) (k : α) (h : ∀ v : β, (k, v) ∈ m → p (k, v) = false) :
    lookupA (m.filter p) k = none := by
  refine lookupA_eq_none (fun v hv => ?_)
  rcases List.mem_filter.mp hv with ⟨hmem, hp⟩
  rw [h v hmem] at hp
  exact Bool.false_ne_true hp

theorem nodup_keys_filter {α β : Type} (m : List (α × β)) (p : α × β → Bool)
    (hnd : (m.map Prod.fst).Nodup) : ((m.filter p).map Prod.fst).Nodup :=
  ((List.filter_sublist (p := p) m).map Prod.fst).nodup hnd

theorem lookupA_filter_eq_some {α β : Type} [DecidableEq α] {m : List (α × β)}
    {p : α × β → Bool} {k : α} {v : β} (hnd : (m.map Prod.fst).Nodup)
    (hmem : (k, v) ∈ m) (hp : p (k, v) = true) :
    lookupA (m.filter p) k = some v :=
  lookupA_eq_some_of_mem (nodup_keys_filter m p hnd) (List.mem_filter.mpr ⟨hmem, hp⟩)

/-! Characterization of the type-to-position index built by `ShimMethod.make`. -/

theorem lookupA_emplaceArgs (acc : List (DexType × Nat)) (i : Nat) (ts : List DexType)
    (t : DexType) :
    lookupA (emplaceArgs acc i ts) t = (lookupA acc t).or (firstIndexFrom i ts t) := by
  induction ts generalizing acc i with
  | nil => simp [emplaceArgs, firstIndexFrom]
  | cons x rest ih =>
    rw [emplaceArgs, ih]
    unfold mapEmplace
    cases hacc : lookupA acc x with
    | some w =>
      simp only [hacc, Option.isSome_some, if_true]
      by_cases hx : x = t
      · subst hx
        simp [hacc, firstIndexFrom]
      · rw [firstIndexFrom]
        simp [hx]
    | none =>
      simp only [hacc, Option.isSome_none, Bool.false_eq_true, if_false]
      rw [lookupA_append]
      by_cases hx : x = t
      · subst hx
        simp [hacc, lookupA, firstIndexFrom]
      · simp [lookupA, hx, firstIndexFrom]

/-- C9: constructing `ShimMethod(method)` builds a type-to-position index in
which position 0 holds the receiver type for an instance method and
subsequent positions follow the declared parameter type sequence; for a
type occurring at several positions, `type_position` returns the first
(lowest) such position, and for a type not in the index it returns
not-found. Formally: the lookup equals the first index of the type in the
receiver-inclusive signature. -/
theorem c9_type_index_first_position (m : Method) (t : DexType) :
    (ShimMethod.make m).type_position t = firstIndexFrom 0 (shimSignature m) t := by
  unfold ShimMethod.make ShimMethod.type_position shimSignature
  by_cases h : m.is_static
  · simp only [h, if_true]
    rw [lookupA_emplaceArgs]
    simp [lookupA]
  · simp only [h, Bool.false_eq_true, if_false]
    rw [lookupA_emplaceArgs]
    unfold mapEmplace
    simp only [lookupA, Option.isSome_none, Bool.false_eq_true, if_false, List.nil_append]
    by_cases hk : m.klass = t <;> simp [lookupA, hk, firstIndexFrom]

/-- C3: for every taint tree and a propagation frame whose kind is a plain
`PropagationKind`, `apply_propagation` returns that same kind unchanged
together with a tree equal to the input (identity transform); being a pure
function of the input tree, it never mutates it. -/
theorem c3_identity_propagation (applyTransform : List Nat → Taint → Taint)
    (join : Taint → Taint → Taint) (id : Nat) (input_taint_tree : TaintTree) :
    apply_propagation applyTransform join ⟨some (Kind.propagation id)⟩ input_taint_tree =
      Except.ok ⟨id, input_taint_tree⟩ := rfl

/-! Taint-tree write lemmas for transform propagation. -/

theorem write_of_not_mem (join : Taint → Taint → Taint) (acc : TaintTree) (p : Path)
    (v : Taint) (h : p ∉ acc.map Prod.fst) :
    TaintTree.write join acc p v = acc ++ [(p, v)] := by
  induction acc with
  | nil => rfl
  | cons e rest ih =>
    simp only [List.map_cons, List.mem_cons, not_or] at h
    rw [TaintTree.write, if_neg (fun hep => h.1 hep.symm)]
    rw [ih h.2]
    simp

theorem writeFold_eq_append (join : Taint → Taint → Taint) (f : Taint → Taint)
    (l : TaintTree) : ∀ acc : TaintTree, ((acc ++ l).map Prod.fst).Nodup →
    l.foldl (fun acc e => TaintTree.write join acc e.1 (f e.2)) acc
      = acc ++ l.map (fun e => (e.1, f e.2)) := by
  induction l with
  | nil =>
    intro acc _
    simp
  | cons e rest ih =>
    intro acc hnd
    have hnd' : ((acc.map Prod.fst) ++ (e.1 :: rest.map Prod.fst)).Nodup := by
      simpa using hnd
    have hmem : e.1 ∉ acc.map Prod.fst := by
      intro hm
      exact (List.nodup_append.mp hnd').2.2 hm (List.mem_cons_self _ _)
    have hnd2 : (((acc ++ [(e.1, f e.2)]) ++ rest).map Prod.fst).Nodup := by
      simpa using hnd'
    rw [List.foldl_cons, write_of_not_mem join acc e.1 (f e.2) hmem]
    rw [ih (acc ++ [(e.1, f e.2)]) hnd2]
    simp

theorem lookup_map_content (g : Taint → Taint) (l : TaintTree) (p : Path) :
    TaintTree.lookup (l.map (fun e => (e.1, g e.2))) p = (TaintTree.lookup l p).map g := by
  induction l with
  | nil => rfl
  | cons e rest ih =>
    by_cases h : e.1 = p <;> simp [TaintTree.lookup, h, ih]

/-- C2: for every taint tree with distinct paths and a propagation frame
whose kind is a `TransformKind` with local transforms L, empty global
transforms and a `PropagationKind` base, `apply_propagation` returns the
base kind together with an output tree — built by weak updates into a
fresh tree — whose paths are exactly the input's paths and whose content
at each path is the result of applying L to the input's content there. -/
theorem c2_transform_propagation_preserves_paths
    (applyTransform : List Nat → Taint → Taint) (join : Taint → Taint → Taint)
    (id : Nat) (local_transforms : List Nat) (input_taint_tree : TaintTree)
    (hnd : (input_taint_tree.map Prod.fst).Nodup) :
    apply_propagation applyTransform join
        ⟨some (Kind.transform (Kind.propagation id) local_transforms none)⟩ input_taint_tree
      = Except.ok ⟨id, input_taint_tree.map
          (fun e => (e.1, applyTransform local_transforms e.2))⟩
    ∧ (input_taint_tree.map (fun e => (e.1, applyTransform local_transforms e.2))).map Prod.fst
      = input_taint_tree.map Prod.fst
    ∧ ∀ (p : Path) (t : Taint), TaintTree.lookup input_taint_tree p = some t →
        TaintTree.lookup
            (input_taint_tree.map (fun e => (e.1, applyTransform local_transforms e.2))) p
          = some (applyTransform local_transforms t) := by
  refine ⟨?_, ?_, ?_⟩
  · have h0 : apply_propagation applyTransform join
        ⟨some (Kind.transform (Kind.propagation id) local_transforms none)⟩ input_taint_tree
        = Except.ok ⟨id, input_taint_tree.foldl
            (fun acc e => TaintTree.write join acc e.1 (applyTransform local_transforms e.2))
            []⟩ := rfl
    rw [h0, writeFold_eq_append join (applyTransform local_transforms) input_taint_tree []
      (by simpa using hnd)]
    rfl
  · simp
  · intro p t ht
    rw [lookup_map_content, ht]
    rfl

/-- Witness for C2 at a concrete two-path tree. -/
theorem c2_transform_propagation_preserves_paths_witness :
    ((([([0], 5), ([1], 7)] : TaintTree)).map Prod.fst).Nodup
    ∧ (apply_propagation (fun l t => t + l.length) Nat.max
        ⟨some (Kind.transform (Kind.propagation 3) [9] none)⟩ [([0], 5), ([1], 7)]
      = Except.ok ⟨3, ([([0], 5), ([1], 7)] : TaintTree).map
          (fun e => (e.1, (fun (l : List Nat) (t : Taint) => t + l.length) [9] e.2))⟩
    ∧ (([([0], 5), ([1], 7)] : TaintTree).map
        (fun e => (e.1, (fun (l : List Nat) (t : Taint) => t + l.length) [9] e.2))).map Prod.fst
      = ([([0], 5), ([1], 7)] : TaintTree).map Prod.fst
    ∧ ∀ (p : Path) (t : Taint),
        TaintTree.lookup ([([0], 5), ([1], 7)] : TaintTree) p = some t →
        TaintTree.lookup (([([0], 5), ([1], 7)] : TaintTree).map
            (fun e => (e.1, (fun (l : List Nat) (t : Taint) => t + l.length) [9] e.2))) p
          = some ((fun (l : List Nat) (t : Taint) => t + l.length) [9] t)) :=
  ⟨by decide,
    c2_transform_propagation_preserves_paths (fun l t => t + l.length) Nat.max 3 [9]
      [([0], 5), ([1], 7)] (by decide)⟩

/-! Characterization of the inferred parameter mapping. -/

theorem lookupA_inferGo (sm : ShimMethod) (first : Nat) (ts : List DexType) :
    ∀ p0 q : Nat, lookupA (inferGo sm first p0 ts) q =
      if q < p0 + first then none
      else (ts.get? (q - (p0 + first))).bind (fun t => sm.type_position t) := by
  induction ts with
  | nil =>
    intro p0 q
    simp only [inferGo, lookupA, List.get?_nil, Option.none_bind]
    split <;> rfl
  | cons t rest ih =>
    intro p0 q
    rw [inferGo]
    cases htp : sm.type_position t with
    | some sp =>
      simp only [lookupA]
      by_cases hq : p0 + first = q
      · subst hq
        rw [if_pos rfl, if_neg (by omega), Nat.sub_self, List.get?_cons_zero]
        simp [htp]
      · rw [if_neg hq, ih (p0 + 1) q]
        rcases Nat.lt_trichotomy q (p0 + first) with hlt | heq | hgt
        · rw [if_pos (by omega), if_pos hlt]
        · exact absurd heq.symm hq
        · rw [if_neg (by omega), if_neg (by omega)]
          have hidx : q - (p0 + first) = (q - (p0 + 1 + first)) + 1 := by omega
          rw [hidx, List.get?_cons_succ]
    | none =>
      rw [ih (p0 + 1) q]
      rcases Nat.lt_trichotomy q (p0 + first) with hlt | heq | hgt
      · rw [if_pos (by omega), if_pos hlt]
      · subst heq
        rw [if_pos (by omega), if_neg (by omega), Nat.sub_self, List.get?_cons_zero]
        simp [htp]
      · rw [if_neg (by omega), if_neg (by omega)]
        have hidx : q - (p0 + first) = (q - (p0 + 1 + first)) + 1 := by omega
        rw [hidx, List.get?_cons_succ]

/-- C1: an empty `ShimParameterMapping` makes `instantiate` delegate
entirely to inference against the concrete target signature: the inferred
mapping has, at each receiver-inclusive target position whose declared
argument type occurs in the shimmed method's type index, the first shim
position holding that type, and nothing elsewhere; and the receiver type
of an instance shimmed method participates in that index at position 0. -/
theorem c1_empty_mapping_delegates_to_inference (shim_target_method : String)
    (shim_target_class : DexType) (shim_target_args : List DexType)
    (shim_target_is_static : Bool) (sm : ShimMethod) :
    ShimParameterMapping.instantiate [] shim_target_method shim_target_class
        shim_target_args shim_target_is_static sm
      = infer_parameter_mapping shim_target_class shim_target_args
          shim_target_is_static sm
    ∧ (∀ q : ParameterPosition,
        lookupA (infer_parameter_mapping shim_target_class shim_target_args
            shim_target_is_static sm) q
          = if q < (if shim_target_is_static then 0 else 1) then none
            else (shim_target_args.get?
                (q - (if shim_target_is_static then 0 else 1))).bind
              (fun t => sm.type_position t))
    ∧ (∀ M : Method, M.is_static = false →
        (ShimMethod.make M).type_position M.klass = some 0) := by
  refine ⟨rfl, ?_, ?_⟩
  · intro q
    unfold infer_parameter_mapping
    rw [lookupA_inferGo]
    simp
  · intro M hM
    unfold ShimMethod.make ShimMethod.type_position
    rw [if_neg (by simp [hM])]
    rw [lookupA_emplaceArgs]
    simp [mapEmplace, lookupA]

/-! Lemmas about the explicit-entry branch of `instantiate`. -/

theorem mem_unique_of_nodup_keys {α β : Type} [DecidableEq α] {m : List (α × β)}
    {k : α} {v1 v2 : β} (hnd : (m.map Prod.fst).Nodup)
    (h1 : (k, v1) ∈ m) (h2 : (k, v2) ∈ m) : v1 = v2 := by
  have e1 := lookupA_eq_some_of_mem hnd h1
  have e2 := lookupA_eq_some_of_mem hnd h2
  rw [e1] at e2
  exact Option.some.inj e2

theorem keepEntry_iff (shim_target_class : DexType) (shim_target_args : List DexType)
    (shim_target_is_static : Bool) (sm : ShimMethod)
    (e : ParameterPosition × ShimParameterPosition) :
    keepEntry shim_target_class shim_target_args shim_target_is_static sm e = true ↔
      ∃ ct, get_parameter_type shim_target_class shim_target_args shim_target_is_static e.1
          = some ct
        ∧ sm.parameter_type e.2 = some ct := by
  unfold keepEntry
  cases hg : get_parameter_type shim_target_class shim_target_args shim_target_is_static e.1 with
  | none => simp
  | some ct =>
    cases hp : sm.parameter_type e.2 with
    | none => simp
    | some st =>
      simp only [beq_iff_eq, Option.some.injEq]
      constructor
      · intro h
        exact ⟨ct, rfl, h.symm⟩
      · rintro ⟨ct', h1, h2⟩
        exact h1.trans h2.symm

theorem instantiate_nonempty (m : ShimParameterMapping) (shim_target_method : String)
    (shim_target_class : DexType) (shim_target_args : List DexType)
    (shim_target_is_static : Bool) (sm : ShimMethod) (hne : m.isEmpty = false) :
    ShimParameterMapping.instantiate m shim_target_method shim_target_class
        shim_target_args shim_target_is_static sm
      = m.filter (keepEntry shim_target_class shim_target_args shim_target_is_static sm) := by
  simp only [ShimParameterMapping.instantiate, hne, Bool.false_eq_true, if_false]

theorem get_parameter_type_out_of_range (shim_target_class : DexType)
    (shim_target_args : List DexType) (shim_target_is_static : Bool)
    (position : ParameterPosition)
    (h : shim_target_args.length + (if shim_target_is_static then 0 else 1) ≤ position) :
    get_parameter_type shim_target_class shim_target_args shim_target_is_static position
      = none := by
  simp only [get_parameter_type]
  rw [if_pos h]

/-- C4: during instantiation of a non-empty mapping, an explicit entry whose
resolved target-parameter type differs from the shimmed method's type at the
mapped shim position is dropped (the result has no entry at that target
position), while an entry whose two resolved types are identical is retained
unchanged. -/
theorem c4_explicit_mapping_type_check (shim_target_method : String)
    (shim_target_class : DexType) (shim_target_args : List DexType)
    (shim_target_is_static : Bool) (sm : ShimMethod) (m : ShimParameterMapping)
    (hne : m.isEmpty = false) (hnd : (m.map Prod.fst).Nodup) :
    (∀ tp sp ct, (tp, sp) ∈ m →
      get_parameter_type shim_target_class shim_target_args shim_target_is_static tp
        = some ct →
      sm.parameter_type sp ≠ some ct →
      lookupA (ShimParameterMapping.instantiate m shim_target_method shim_target_class
        shim_target_args shim_target_is_static sm) tp = none)
    ∧ (∀ tp sp ct, (tp, sp) ∈ m →
      get_parameter_type shim_target_class shim_target_args shim_target_is_static tp
        = some ct →
      sm.parameter_type sp = some ct →
      lookupA (ShimParameterMapping.instantiate m shim_target_method shim_target_class
        shim_target_args shim_target_is_static sm) tp = some sp) := by
  rw [instantiate_nonempty m shim_target_method shim_target_class shim_target_args
    shim_target_is_static sm hne]
  constructor
  · intro tp sp ct hmem hg hmismatch
    refine lookupA_filter_eq_none m _ tp (fun v hv => ?_)
    have hveq : v = sp := mem_unique_of_nodup_keys hnd hv hmem
    subst hveq
    cases hkeep : keepEntry shim_target_class shim_target_args shim_target_is_static sm (tp, v)
    · rfl
    · exfalso
      rcases (keepEntry_iff shim_target_class shim_target_args shim_target_is_static sm
        (tp, v)).mp hkeep with ⟨ct', hg', hp'⟩
      rw [hg] at hg'
      exact hmismatch ((Option.some.inj hg') ▸ hp')
  · intro tp sp ct hmem hg hp
    exact lookupA_filter_eq_some hnd hmem
      ((keepEntry_iff shim_target_class shim_target_args shim_target_is_static sm
        (tp, sp)).mpr ⟨ct, hg, hp⟩)

/-- Witness for C4: the shimmed method is an instance method of class 5 with
argument types [1, 3]; the static target has argument types [1, 2]. Entry
0 → 1 has matching type 1 and is retained; entry 1 → 2 resolves to target
type 2 against shim type 3 and is dropped. -/
theorem c4_explicit_mapping_type_check_witness :
    (([(0, 1), (1, 2)] : ShimParameterMapping).isEmpty = false
      ∧ (([(0, 1), (1, 2)] : ShimParameterMapping).map Prod.fst).Nodup)
    ∧ ((∀ tp sp ct, (tp, sp) ∈ ([(0, 1), (1, 2)] : ShimParameterMapping) →
      get_parameter_type 10 [1, 2] true tp = some ct →
      (ShimMethod.make ⟨5, [1, 3], false⟩).parameter_type sp ≠ some ct →
      lookupA (ShimParameterMapping.instantiate [(0, 1), (1, 2)] "t" 10
        [1, 2] true (ShimMethod.make ⟨5, [1, 3], false⟩)) tp = none)
    ∧ (∀ tp sp ct, (tp, sp) ∈ ([(0, 1), (1, 2)] : ShimParameterMapping) →
      get_parameter_type 10 [1, 2] true tp = some ct →
      (ShimMethod.make ⟨5, [1, 3], false⟩).parameter_type sp = some ct →
      lookupA (ShimParameterMapping.instantiate [(0, 1), (1, 2)] "t" 10
        [1, 2] true (ShimMethod.make ⟨5, [1, 3], false⟩)) tp = some sp)) :=
  ⟨⟨rfl, by decide⟩,
    c4_explicit_mapping_type_check "t" 10 [1, 2] true (ShimMethod.make ⟨5, [1, 3], false⟩)
      [(0, 1), (1, 2)] rfl (by decide)⟩

/-- C5: during instantiation of a non-empty mapping, an explicit entry whose
target position is at or past the target's receiver-inclusive parameter
count is dropped without any fatal error (instantiation still returns a
mapping), and every entry whose target position resolves to a type
identical to the shimmed method's type at the mapped shim position is still
present in the result. -/
theorem c5_out_of_range_target_position_dropped (shim_target_method : String)
    (shim_target_class : DexType) (shim_target_args : List DexType)
    (shim_target_is_static : Bool) (sm : ShimMethod) (m : ShimParameterMapping)
    (hne : m.isEmpty = false) (hnd : (m.map Prod.fst).Nodup) :
    (∀ tp : ParameterPosition,
      shim_target_args.length + (if shim_target_is_static then 0 else 1) ≤ tp →
      lookupA (ShimParameterMapping.instantiate m shim_target_method shim_target_class
        shim_target_args shim_target_is_static sm) tp = none)
    ∧ (∀ tp sp ct, (tp, sp) ∈ m →
      get_parameter_type shim_target_class shim_target_args shim_target_is_static tp
        = some ct →
      sm.parameter_type sp = some ct →
      lookupA (ShimParameterMapping.instantiate m shim_target_method shim_target_class
        shim_target_args shim_target_is_static sm) tp = some sp) := by
  rw [instantiate_nonempty m shim_target_method shim_target_class shim_target_args
    shim_target_is_static sm hne]
  constructor
  · intro tp hrange
    refine lookupA_filter_eq_none m _ tp (fun v hv => ?_)
    cases hkeep : keepEntry shim_target_class shim_target_args shim_target_is_static sm (tp, v)
    · rfl
    · exfalso
      rcases (keepEntry_iff shim_target_class shim_target_args shim_target_is_static sm
        (tp, v)).mp hkeep with ⟨ct', hg', _⟩
      rw [get_parameter_type_out_of_range shim_target_class shim_target_args
        shim_target_is_static tp hrange] at hg'
      exact Option.noConfusion hg'
  · intro tp sp ct hmem hg hp
    exact lookupA_filter_eq_some hnd hmem
      ((keepEntry_iff shim_target_class shim_target_args shim_target_is_static sm
        (tp, sp)).mpr ⟨ct, hg, hp⟩)

/-- Witness for C5: the static target has 2 parameters, so the entry at
target position 7 is out of range and dropped, while the valid entry 0 → 1
is retained. -/
theorem c5_out_of_range_target_position_dropped_witness :
    (([(0, 1), (7, 2)] : ShimParameterMapping).isEmpty = false
      ∧ (([(0, 1), (7, 2)] : ShimParameterMapping).map Prod.fst).Nodup)
    ∧ ((∀ tp : ParameterPosition, [1, 2].length + (if true then 0 else 1) ≤ tp →
      lookupA (ShimParameterMapping.instantiate [(0, 1), (7, 2)] "t" 10
        [1, 2] true (ShimMethod.make ⟨5, [1, 3], false⟩)) tp = none)
    ∧ (∀ tp sp ct, (tp, sp) ∈ ([(0, 1), (7, 2)] : ShimParameterMapping) →
      get_parameter_type 10 [1, 2] true tp = some ct →
      (ShimMethod.make ⟨5, [1, 3], false⟩).parameter_type sp = some ct →
      lookupA (ShimParameterMapping.instantiate [(0, 1), (7, 2)] "t" 10
        [1, 2] true (ShimMethod.make ⟨5, [1, 3], false⟩)) tp = some sp)) :=
  ⟨⟨rfl, by decide⟩,
    c5_out_of_range_target_position_dropped "t" 10 [1, 2] true
      (ShimMethod.make ⟨5, [1, 3], false⟩) [(0, 1), (7, 2)] rfl (by decide)⟩

/-- C10: for every non-empty declared mapping, every entry of the mapping
returned by `instantiate` is an entry of the declared mapping — instantiation
only filters entries, never adds a target position or rebinds one to a
different shim position. -/
theorem c10_instantiate_only_filters (shim_target_method : String)
    (shim_target_class : DexType) (shim_target_args : List DexType)
    (shim_target_is_static : Bool) (sm : ShimMethod) (m : ShimParameterMapping)
    (hne : m.isEmpty = false) (hnd : (m.map Prod.fst).Nodup) :
    ∀ tp sp, lookupA (ShimParameterMapping.instantiate m shim_target_method
        shim_target_class shim_target_args shim_target_is_static sm) tp = some sp →
      lookupA m tp = some sp := by
  rw [instantiate_nonempty m shim_target_method shim_target_class shim_target_args
    shim_target_is_static sm hne]
  intro tp sp h
  exact lookupA_eq_some_of_mem hnd (List.mem_filter.mp (mem_of_lookupA h)).1

/-- Witness for C10 at a concrete non-empty mapping. -/
theorem c10_instantiate_only_filters_witness :
    (([(0, 1), (1, 2)] : ShimParameterMapping).isEmpty = false
      ∧ (([(0, 1), (1, 2)] : ShimParameterMapping).map Prod.fst).Nodup)
    ∧ (∀ tp sp, lookupA (ShimParameterMapping.instantiate [(0, 1), (1, 2)] "u" 10
        [1, 2] true (ShimMethod.make ⟨5, [1, 3], false⟩)) tp = some sp →
      lookupA ([(0, 1), (1, 2)] : ShimParameterMapping) tp = some sp) :=
  ⟨⟨rfl, by decide⟩,
    c10_instantiate_only_filters "u" 10 [1, 2] true (ShimMethod.make ⟨5, [1, 3], false⟩)
      [(0, 1), (1, 2)] rfl (by decide)⟩

/-! Lemmas about operand resolution. -/

theorem receiver_register_static (st : ShimTarget) (instruction : IRInstruction)
    (h : st.call_target.is_static = true) :
    st.receiver_register instruction = Except.ok none := by
  unfold ShimTarget.receiver_register
  rw [if_pos h]

theorem receiver_register_no_entry (st : ShimTarget) (instruction : IRInstruction)
    (h1 : st.call_target.is_static = false)
    (h2 : lookupA st.parameter_mapping 0 = none) :
    st.receiver_register instruction = Except.ok none := by
  unfold ShimTarget.receiver_register
  rw [if_neg (by simp [h1]), h2]

theorem receiver_register_entry (st : ShimTarget) (instruction : IRInstruction)
    (sp : ShimParameterPosition) (h1 : st.call_target.is_static = false)
    (h2 : lookupA st.parameter_mapping 0 = some sp) :
    st.receiver_register instruction =
      if h : sp < instruction.srcs.length then
        Except.ok (some (instruction.srcs.get ⟨sp, h⟩))
      else Except.error () := by
  unfold ShimTarget.receiver_register
  rw [if_neg (by simp [h1]), h2]

theorem paramRegsGo_ok (mapping : ShimParameterMapping) (srcs : List Register) :
    ∀ ps : List ParameterPosition,
    (∀ p ∈ ps, ∀ sp, lookupA mapping p = some sp → sp < srcs.length) →
    ∃ l, paramRegsGo mapping srcs ps = Except.ok l ∧
      ∀ q r, (q, r) ∈ l ↔
        q ∈ ps ∧ ∃ sp, lookupA mapping q = some sp ∧ srcs[sp]? = some r := by
  intro ps
  induction ps with
  | nil =>
    intro _
    exact ⟨[], rfl, by simp⟩
  | cons p rest ih =>
    intro h
    rcases ih (fun a ha => h a (List.mem_cons_of_mem _ ha)) with ⟨l, hok, hiff⟩
    cases hlp : lookupA mapping p with
    | none =>
      refine ⟨l, by simp [paramRegsGo, hlp, hok], fun q r => ?_⟩
      rw [hiff q r]
      constructor
      · rintro ⟨hq, hx⟩
        exact ⟨List.mem_cons_of_mem _ hq, hx⟩
      · rintro ⟨hq, sp, hl, hg⟩
        rcases List.mem_cons.mp hq with hq | hq
        · subst hq
          rw [hlp] at hl
          exact Option.noConfusion hl
        · exact ⟨hq, sp, hl, hg⟩
    | some sp =>
      have hsp : sp < srcs.length := h p (List.mem_cons_self _ _) sp hlp
      have hget : srcs[sp]? = some (srcs.get ⟨sp, hsp⟩) := by
        rw [List.getElem?_eq_getElem hsp, List.get_eq_getElem]
      refine ⟨(p, srcs.get ⟨sp, hsp⟩) :: l,
        by simp [paramRegsGo, hlp, hget, hok], fun q r => ?_⟩
      constructor
      · intro hmem
        rcases List.mem_cons.mp hmem with heq | hmem
        · injection heq with hq hr
          subst hq
          subst hr
          exact ⟨List.mem_cons_self _ _, sp, hlp, hget⟩
        · rcases (hiff q r).mp hmem with ⟨hq, hx⟩
          exact ⟨List.mem_cons_of_mem _ hq, hx⟩
      · rintro ⟨hq, sp', hl, hg⟩
        rcases List.mem_cons.mp hq with hq | hq
        · subst hq
          rw [hlp] at hl
          rcases Option.some.inj hl with rfl
          rw [hget] at hg
          rcases Option.some.inj hg with rfl
          exact List.mem_cons_self _ _
        · exact List.mem_cons_of_mem _ ((hiff q r).mpr ⟨hq, sp', hl, hg⟩)

theorem paramRegsGo_error (mapping : ShimParameterMapping) (srcs : List Register) :
    ∀ (ps : List ParameterPosition) (p : ParameterPosition) (sp : ShimParameterPosition),
    p ∈ ps → lookupA mapping p = some sp → srcs[sp]? = none →
    paramRegsGo mapping srcs ps = Except.error () := by
  intro ps
  induction ps with
  | nil =>
    intro p sp hmem
    exact absurd hmem (List.not_mem_nil p)
  | cons a rest ih =>
    intro p sp hmem hlp hget
    rcases List.mem_cons.mp hmem with hpa | hpr
    · subst hpa
      simp [paramRegsGo, hlp, hget]
    · cases hla : lookupA mapping a with
      | none =>
        simp only [paramRegsGo, hla]
        exact ih p sp hpr hlp hget
      | some spa =>
        cases hga : srcs[spa]? with
        | none => simp [paramRegsGo, hla, hga]
        | some r =>
          simp only [paramRegsGo, hla, hga]
          rw [ih p sp hpr hlp hget]

/-- C6: in both `receiver_register` and `parameter_registers`, dereferencing
a mapped shim position at or past the instruction's source-operand count is
an assertion failure aborting the current unit of work (the error outcome)
rather than a silent operand read; and when every shim position in the
mapping is strictly below the operand count, no such failure is reachable
and both operations return normally. -/
theorem c6_out_of_range_shim_position_asserts (st : ShimTarget)
    (instruction : IRInstruction) :
    ((∀ e ∈ st.parameter_mapping, e.2 < instruction.srcs.length) →
      (∃ v, st.receiver_register instruction = Except.ok v)
      ∧ (∃ l, st.parameter_registers instruction = Except.ok l))
    ∧ (∀ sp, st.call_target.is_static = false →
        lookupA st.parameter_mapping 0 = some sp → instruction.srcs.length ≤ sp →
        st.receiver_register instruction = Except.error ())
    ∧ (∀ p sp, p < st.call_target.number_of_parameters →
        lookupA st.parameter_mapping p = some sp → instruction.srcs.length ≤ sp →
        st.parameter_registers instruction = Except.error ()) := by
  refine ⟨fun h => ⟨?_, ?_⟩, fun sp hstat hl hge => ?_, fun p sp hp hl hge => ?_⟩
  · cases hstat : st.call_target.is_static with
    | true => exact ⟨none, receiver_register_static st instruction hstat⟩
    | false =>
      cases hl : lookupA st.parameter_mapping 0 with
      | none => exact ⟨none, receiver_register_no_entry st instruction hstat hl⟩
      | some rp =>
        have hrp : rp < instruction.srcs.length := h (0, rp) (mem_of_lookupA hl)
        exact ⟨some (instruction.srcs.get ⟨rp, hrp⟩),
          by rw [receiver_register_entry st instruction rp hstat hl, dif_pos hrp]⟩
  · rcases paramRegsGo_ok st.parameter_mapping instruction.srcs
      (List.range st.call_target.number_of_parameters)
      (fun a _ sp hsp => h (a, sp) (mem_of_lookupA hsp)) with ⟨l, hok, _⟩
    exact ⟨l, hok⟩
  · rw [receiver_register_entry st instruction sp hstat hl,
      dif_neg (Nat.not_lt.mpr hge)]
  · exact paramRegsGo_error st.parameter_mapping instruction.srcs
      (List.range st.call_target.number_of_parameters) p sp
      (List.mem_range.mpr hp) hl (List.getElem?_eq_none hge)

/-- Witness for C6: a non-static target with mapping 0 → 1 against a
three-operand instruction. -/
theorem c6_out_of_range_shim_position_asserts_witness :
    ((∀ e ∈ (ShimTarget.mk ⟨5, [1], false⟩ [(0, 1)]).parameter_mapping,
      e.2 < (IRInstruction.mk [40, 41, 42]).srcs.length) →
      (∃ v, (ShimTarget.mk ⟨5, [1], false⟩ [(0, 1)]).receiver_register
        (IRInstruction.mk [40, 41, 42]) = Except.ok v)
      ∧ (∃ l, (ShimTarget.mk ⟨5, [1], false⟩ [(0, 1)]).parameter_registers
        (IRInstruction.mk [40, 41, 42]) = Except.ok l))
    ∧ (∀ sp, (ShimTarget.mk ⟨5, [1], false⟩ [(0, 1)]).call_target.is_static = false →
        lookupA (ShimTarget.mk ⟨5, [1], false⟩ [(0, 1)]).parameter_mapping 0 = some sp →
        (IRInstruction.mk [40, 41, 42]).srcs.length ≤ sp →
        (ShimTarget.mk ⟨5, [1], false⟩ [(0, 1)]).receiver_register
          (IRInstruction.mk [40, 41, 42]) = Except.error ())
    ∧ (∀ p sp, p < (ShimTarget.mk ⟨5, [1], false⟩ [(0, 1)]).call_target.number_of_parameters →
        lookupA (ShimTarget.mk ⟨5, [1], false⟩ [(0, 1)]).parameter_mapping p = some sp →
        (IRInstruction.mk [40, 41, 42]).srcs.length ≤ sp →
        (ShimTarget.mk ⟨5, [1], false⟩ [(0, 1)]).parameter_registers
          (IRInstruction.mk [40, 41, 42]) = Except.error ()) :=
  c6_out_of_range_shim_position_asserts (ShimTarget.mk ⟨5, [1], false⟩ [(0, 1)])
    (IRInstruction.mk [40, 41, 42])

/-- C7: `receiver_register` returns the instruction operand at the mapped
shim position exactly when the target method is non-static and the mapping
has an entry for target position 0; in every other case — in particular for
every static target, regardless of mapping contents — it returns none.
Stated under the internal invariant that mapped shim positions are below
the instruction's operand count. -/
theorem c7_receiver_register_cases (st : ShimTarget) (instruction : IRInstruction)
    (hwf : ∀ e ∈ st.parameter_mapping, e.2 < instruction.srcs.length) :
    ((∃ r, st.receiver_register instruction = Except.ok (some r)) ↔
      (st.call_target.is_static = false ∧ lookupA st.parameter_mapping 0 ≠ none))
    ∧ (∀ sp, st.call_target.is_static = false →
        lookupA st.parameter_mapping 0 = some sp →
        ∀ h : sp < instruction.srcs.length,
        st.receiver_register instruction = Except.ok (some (instruction.srcs.get ⟨sp, h⟩)))
    ∧ (st.call_target.is_static = true →
        st.receiver_register instruction = Except.ok none)
    ∧ (st.call_target.is_static = false → lookupA st.parameter_mapping 0 = none →
        st.receiver_register instruction = Except.ok none) := by
  have hrecv : ∀ sp, st.call_target.is_static = false →
      lookupA st.parameter_mapping 0 = some sp → ∀ h : sp < instruction.srcs.length,
      st.receiver_register instruction
        = Except.ok (some (instruction.srcs.get ⟨sp, h⟩)) := by
    intro sp hstat hl h
    rw [receiver_register_entry st instruction sp hstat hl, dif_pos h]
  refine ⟨⟨?_, ?_⟩, hrecv, receiver_register_static st instruction,
    receiver_register_no_entry st instruction⟩
  · rintro ⟨r, hr⟩
    cases hstat : st.call_target.is_static with
    | true =>
      rw [receiver_register_static st instruction hstat] at hr
      exact Option.noConfusion (Except.ok.inj hr)
    | false =>
      cases hl : lookupA st.parameter_mapping 0 with
      | none =>
        rw [receiver_register_no_entry st instruction hstat hl] at hr
        exact Option.noConfusion (Except.ok.inj hr)
      | some sp => exact ⟨rfl, by simp [hl]⟩
  · rintro ⟨hstat, hl⟩
    cases hl0 : lookupA st.parameter_mapping 0 with
    | none => exact absurd hl0 hl
    | some sp =>
      have hsp : sp < instruction.srcs.length := hwf (0, sp) (mem_of_lookupA hl0)
      exact ⟨instruction.srcs.get ⟨sp, hsp⟩, hrecv sp hstat hl0 hsp⟩

/-- Witness for C7: a non-static target whose mapping binds position 0 to
shim position 1, against an instruction with operands [40, 41, 42]. -/
theorem c7_receiver_register_cases_witness :
    (∀ e ∈ (ShimTarget.mk ⟨5, [1], false⟩ [(0, 1)]).parameter_mapping,
      e.2 < (IRInstruction.mk [40, 41, 42]).srcs.length)
    ∧ (((∃ r, (ShimTarget.mk ⟨5, [1], false⟩ [(0, 1)]).receiver_register
          (IRInstruction.mk [40, 41, 42]) = Except.ok (some r)) ↔
      ((ShimTarget.mk ⟨5, [1], false⟩ [(0, 1)]).call_target.is_static = false
        ∧ lookupA (ShimTarget.mk ⟨5, [1], false⟩ [(0, 1)]).parameter_mapping 0 ≠ none))
    ∧ (∀ sp, (ShimTarget.mk ⟨5, [1], false⟩ [(0, 1)]).call_target.is_static = false →
        lookupA (ShimTarget.mk ⟨5, [1], false⟩ [(0, 1)]).parameter_mapping 0 = some sp →
        ∀ h : sp < (IRInstruction.mk [40, 41, 42]).srcs.length,
        (ShimTarget.mk ⟨5, [1], false⟩ [(0, 1)]).receiver_register
            (IRInstruction.mk [40, 41, 42])
          = Except.ok (some ((IRInstruction.mk [40, 41, 42]).srcs.get ⟨sp, h⟩)))
    ∧ ((ShimTarget.mk ⟨5, [1], false⟩ [(0, 1)]).call_target.is_static = true →
        (ShimTarget.mk ⟨5, [1], false⟩ [(0, 1)]).receiver_register
          (IRInstruction.mk [40, 41, 42]) = Except.ok none)
    ∧ ((ShimTarget.mk ⟨5, [1], false⟩ [(0, 1)]).call_target.is_static = false →
        lookupA (ShimTarget.mk ⟨5, [1], false⟩ [(0, 1)]).parameter_mapping 0 = none →
        (ShimTarget.mk ⟨5, [1], false⟩ [(0, 1)]).receiver_register
          (IRInstruction.mk [40, 41, 42]) = Except.ok none)) :=
  ⟨by decide,
    c7_receiver_register_cases (ShimTarget.mk ⟨5, [1], false⟩ [(0, 1)])
      (IRInstruction.mk [40, 41, 42]) (by decide)⟩

/-- C8: `parameter_registers` returns a map whose entries are exactly the
target parameter positions below the target's parameter count for which the
mapping has an entry, each bound to the instruction operand at the mapped
shim position; unmapped positions are absent (partial correlation). Stated
under the internal invariant that mapped shim positions are below the
operand count. -/
theorem c8_parameter_registers_partial (st : ShimTarget) (instruction : IRInstruction)
    (hwf : ∀ e ∈ st.parameter_mapping, e.2 < instruction.srcs.length) :
    ∃ l, st.parameter_registers instruction = Except.ok l ∧
      ∀ q r, (q, r) ∈ l ↔
        (q < st.call_target.number_of_parameters
          ∧ ∃ sp, lookupA st.parameter_mapping q = some sp
              ∧ instruction.srcs[sp]? = some r) := by
  rcases paramRegsGo_ok st.parameter_mapping instruction.srcs
    (List.range st.call_target.number_of_parameters)
    (fun a _ sp hsp => hwf (a, sp) (mem_of_lookupA hsp)) with ⟨l, hok, hiff⟩
  refine ⟨l, hok, fun q r => ?_⟩
  rw [hiff q r, List.mem_range]

/-- Witness for C8: mapping covering positions 0 and 2 of a static target
with 3 parameters, against an instruction with operands [40, 41, 42]. -/
theorem c8_parameter_registers_partial_witness :
    (∀ e ∈ (ShimTarget.mk ⟨5, [1, 2, 3], true⟩ [(0, 2), (2, 0)]).parameter_mapping,
      e.2 < (IRInstruction.mk [40, 41, 42]).srcs.length)
    ∧ ∃ l, (ShimTarget.mk ⟨5, [1, 2, 3], true⟩ [(0, 2), (2, 0)]).parameter_registers
        (IRInstruction.mk [40, 41, 42]) = Except.ok l ∧
      ∀ q r, (q, r) ∈ l ↔
        (q < (ShimTarget.mk ⟨5, [1, 2, 3], true⟩
            [(0, 2), (2, 0)]).call_target.number_of_parameters
          ∧ ∃ sp, lookupA (ShimTarget.mk ⟨5, [1, 2, 3], true⟩
              [(0, 2), (2, 0)]).parameter_mapping q = some sp
              ∧ (IRInstruction.mk [40, 41, 42]).srcs[sp]? = some r) :=
  ⟨by decide,
    c8_parameter_registers_partial (ShimTarget.mk ⟨5, [1, 2, 3], true⟩ [(0, 2), (2, 0)])
      (IRInstruction.mk [40, 41, 42]) (by decide)⟩

end MT
